import Mathlib

/-!
# Verification of the `idlgen` schema-ingestion and binding-generation core

This file gives a shallow embedding, in Lean 4, of the core of the
`fakhrilainur/idlgen` repository: the polymorphic IDL type-node decoder,
the recursive type resolver (`mapType`), the discriminator derivation
functions, the program-name defaulting logic, and the discriminator
selection performed by the code-generation templates.

The repository contains three variants of the `idlgen` package:
the copy embedded in `main.go`, and the two files `unnamed/part_000` and
`unnamed/part_001`.  The variants disagree on several points (account-name
normalization, error vs. soft fallback for unrecognized type objects,
128-bit integer mapping, program-name defaulting, explicit instruction
discriminators), so each variant is embedded separately:

* namespace `P0`  — code of `src/unnamed/part_000`;
* namespace `P1`  — code of `src/unnamed/part_001`;
* namespace `MG`  — code of the `idlgen` package copy inside `src/main.go`;
* namespace `V1`  — code that is byte-identical in `main.go` and `part_001`
  (their `IdlType.UnmarshalJSON` and `IdlEnumField.UnmarshalJSON`).

Go machine integers are modelled as `Nat`/`Int` with explicit `% 2^32`
where overflow matters; JSON numbers (Go `float64`) are modelled as `Rat`
with truncation toward zero for Go's `int(f)` conversion; Go functions
that can return an `error` (or panic) are modelled with `Option`.
-/

set_option maxRecDepth 100000

namespace IdlGen

/-! ## SHA-256 over byte lists

Embedding of the `crypto/sha256` standard-library function used by the
discriminator derivation code (`sha256.Sum256`).  Bytes are `Nat < 256`;
32-bit words are `Nat` reduced modulo `2^32`. -/

def add32 (x y : Nat) : Nat := (x + y) % 4294967296

def rotr32 (n x : Nat) : Nat := ((x >>> n) ||| (x <<< (32 - n))) % 4294967296

def shaCh (x y z : Nat) : Nat := (x &&& y) ^^^ ((x ^^^ 4294967295) &&& z)

def shaMaj (x y z : Nat) : Nat := (x &&& y) ^^^ (x &&& z) ^^^ (y &&& z)

def bigSigma0 (x : Nat) : Nat := rotr32 2 x ^^^ rotr32 13 x ^^^ rotr32 22 x

def bigSigma1 (x : Nat) : Nat := rotr32 6 x ^^^ rotr32 11 x ^^^ rotr32 25 x

def smallSigma0 (x : Nat) : Nat := rotr32 7 x ^^^ rotr32 18 x ^^^ (x >>> 3)

def smallSigma1 (x : Nat) : Nat := rotr32 17 x ^^^ rotr32 19 x ^^^ (x >>> 10)

/-- The 64 SHA-256 round constants of FIPS 180-4, written in decimal. -/
def shaK : List Nat :=
  [1116352408, 1899447441, 3049323471, 3921009573, 961987163,
   1508970993, 2453635748, 2870763221, 3624381080, 310598401,
   607225278, 1426881987, 1925078388, 2162078206, 2614888103,
   3248222580, 3835390401, 4022224774, 264347078, 604807628,
   770255983, 1249150122, 1555081692, 1996064986, 2554220882,
   2821834349, 2952996808, 3210313671, 3336571891, 3584528711,
   113926993, 338241895, 666307205, 773529912, 1294757372,
   1396182291, 1695183700, 1986661051, 2177026350, 2456956037,
   2730485921, 2820302411, 3259730800, 3345764771, 3516065817,
   3600352804, 4094571909, 275423344, 430227734, 506948616,
   659060556, 883997877, 958139571, 1322822218, 1537002063,
   1747873779, 1955562222, 2024104815, 2227730452, 2361852424,
   2428436474, 2756734187, 3204031479, 3329325298]

/-- The eight SHA-256 initial hash values, written in decimal. -/
def shaH0 : List Nat :=
  [1779033703, 3144134277, 1013904242, 2773480762,
   1359893119, 2600822924, 528734635, 1541459225]

/-- Split a list into consecutive chunks of `k` elements. -/
def chunks (k : Nat) (l : List α) : List (List α) :=
  (List.range ((l.length + k - 1) / k)).map (fun i => (l.drop (i * k)).take k)

/-- Big-endian 8-byte encoding of a natural number (the bit-length field). -/
def be8 (n : Nat) : List Nat :=
  [(n >>> 56) % 256, (n >>> 48) % 256, (n >>> 40) % 256, (n >>> 32) % 256,
   (n >>> 24) % 256, (n >>> 16) % 256, (n >>> 8) % 256, n % 256]

/-- SHA-256 padding: append `0x80`, zeros, and the 64-bit big-endian bit
length, reaching a multiple of 64 bytes. -/
def shaPad (msg : List Nat) : List Nat :=
  msg ++ 0x80 :: List.replicate ((64 - ((msg.length + 9) % 64)) % 64) 0
      ++ be8 (8 * msg.length)

/-- Interpret a 64-byte block as 16 big-endian 32-bit words. -/
def wordsBE (block : List Nat) : List Nat :=
  (chunks 4 block).map (fun b => b.foldl (fun acc x => acc * 256 + x) 0)

/-- Extend the 16-word block to the 64-word message schedule. -/
def scheduleAux : List Nat → Nat → List Nat
  | ws, 0 => ws
  | ws, k + 1 =>
    let n := ws.length
    scheduleAux
      (ws ++ [add32 (add32 (smallSigma1 (ws.getD (n - 2) 0)) (ws.getD (n - 7) 0))
                    (add32 (smallSigma0 (ws.getD (n - 15) 0)) (ws.getD (n - 16) 0))]) k

def schedule (ws : List Nat) : List Nat := scheduleAux ws 48

/-- One SHA-256 compression round; the state is the 8-word vector. -/
def shaRound (st : List Nat) (kw : Nat × Nat) : List Nat :=
  match st with
  | [a, b, c, d, e, f, g, h] =>
    let t1 := add32 h (add32 (bigSigma1 e) (add32 (shaCh e f g) (add32 kw.1 kw.2)))
    let t2 := add32 (bigSigma0 a) (shaMaj a b c)
    [add32 t1 t2, a, b, c, add32 d t1, e, f, g]
  | _ => st

def shaCompress (h : List Nat) (block : List Nat) : List Nat :=
  let st := (shaK.zip (schedule (wordsBE block))).foldl shaRound h
  (h.zip st).map (fun p => add32 p.1 p.2)

/-- The full SHA-256 digest (32 bytes) of a byte list. -/
def sha256 (msg : List Nat) : List Nat :=
  ((chunks 64 (shaPad msg)).foldl shaCompress shaH0).foldr
    (fun w acc => (w >>> 24) % 256 :: (w >>> 16) % 256 :: (w >>> 8) % 256 :: w % 256 :: acc) []

/-! ## Character and string helpers

ASCII fragments of the `unicode` and `strings` standard-library functions
the repository uses (`unicode.IsUpper`, `unicode.ToLower`, `strings.Title`
with its `isSeparator`, `strings.ReplaceAll` on single-character patterns,
`strings.TrimSuffix`).  All names appearing in the repository and in the
claims are ASCII, so only the ASCII branches are modelled; characters
above `0x7F` are treated as ordinary letters. -/

def goIsUpper (c : Char) : Bool := 'A' ≤ c && c ≤ 'Z'

def goIsLower (c : Char) : Bool := 'a' ≤ c && c ≤ 'z'

def goIsDigit (c : Char) : Bool := '0' ≤ c && c ≤ '9'

def goToLower (c : Char) : Char :=
  if goIsUpper c then Char.ofNat (c.toNat + 32) else c

def goToTitle (c : Char) : Char :=
  if goIsLower c then Char.ofNat (c.toNat - 32) else c

/-- ASCII branch of `strings.isSeparator`: everything that is not a letter,
digit or underscore separates words for `strings.Title`. -/
def goIsSeparator (c : Char) : Bool :=
  if c.toNat ≤ 0x7F then !(goIsUpper c || goIsLower c || goIsDigit c || c = '_')
  else false

/-- `strings.Title`: title-case every character that follows a separator,
tracking the previous (unmapped) character, which starts as a space. -/
def goTitleAux (prev : Char) : List Char → List Char
  | [] => []
  | c :: rest => (if goIsSeparator prev then goToTitle c else c) :: goTitleAux c rest

def goTitle (cs : List Char) : List Char := goTitleAux ' ' cs

/-- `toPascalCase` as written in `part_001` and `main.go`: replace `_` by a
space, `strings.Title`, then remove the spaces. -/
def toPascalCase1 (s : String) : String :=
  ⟨(goTitle (s.data.map (fun c => if c = '_' then ' ' else c))).filter (· ≠ ' ')⟩

/-- UTF-8 encoding of one character (code-point ranges per RFC 3629). -/
def utf8Char (c : Char) : List Nat :=
  let v := c.toNat
  if v < 0x80 then [v]
  else if v < 0x800 then [0xC0 ||| (v >>> 6), 0x80 ||| (v &&& 0x3F)]
  else if v < 0x10000 then
    [0xE0 ||| (v >>> 12), 0x80 ||| ((v >>> 6) &&& 0x3F), 0x80 ||| (v &&& 0x3F)]
  else
    [0xF0 ||| (v >>> 18), 0x80 ||| ((v >>> 12) &&& 0x3F),
     0x80 ||| ((v >>> 6) &&& 0x3F), 0x80 ||| (v &&& 0x3F)]

/-- UTF-8 bytes of a character list (Go's `[]byte(s)`). -/
def utf8Bytes (cs : List Char) : List Nat :=
  cs.foldr (fun c acc => utf8Char c ++ acc) []

/-- Byte width of one character in UTF-8 (the amount Go's `range` loop
advances its byte index by). -/
def utf8Size (c : Char) : Nat := (utf8Char c).length

def hexDigit (n : Nat) : Char :=
  if n < 10 then Char.ofNat (48 + n) else Char.ofNat (87 + n)

/-- Lowercase hexadecimal digits of a positive number, no padding; the
first argument is fuel (structural recursion), always sufficient because
a number needs at most as many divisions by 16 as its own value. -/
def hexCharsAux : Nat → Nat → List Char
  | _, 0 => []
  | 0, _ + 1 => []
  | fuel + 1, n + 1 => hexCharsAux fuel ((n + 1) / 16) ++ [hexDigit ((n + 1) % 16)]

def hexChars (n : Nat) : List Char := hexCharsAux n n

/-- `fmt.Sprintf "%02x"` of a non-negative value. -/
def hexPad2Nat (n : Nat) : String :=
  let s : String := if n = 0 then "0" else ⟨hexChars n⟩
  if s.length < 2 then "0" ++ s else s

/-- `fmt.Sprintf "%02x"` of a Go `int` (a negative value prints a sign and
already fills the width of two). -/
def hexPad2Int (v : Int) : String :=
  if v < 0 then "-" ++ (⟨hexChars v.natAbs⟩ : String) else hexPad2Nat v.toNat

/-- `intSliceToBytesLiteral` (identical in all three variants): comma-join
the `0x%02x` renderings, empty slice giving the empty string. -/
def intSliceToBytesLiteral (nums : List Int) : String :=
  if nums = [] then ""
  else String.intercalate ", " (nums.map (fun v => "0x" ++ hexPad2Int v))

/-- `bytesLiteral` from `part_000` (renders a `[]byte` with `0x%02x`). -/
def bytesLiteral (b : List Nat) : String :=
  String.intercalate ", " (b.map (fun v => "0x" ++ hexPad2Nat v))

/-! ## `path/filepath` helpers used by program-name defaulting -/

def isPathSep (c : Char) : Bool := c = '/'

/-- `filepath.Base`: last path element after stripping trailing slashes. -/
def goBase (p : String) : String :=
  if p = "" then "."
  else
    let cs := (p.data.reverse.dropWhile isPathSep).reverse
    let name := (cs.reverse.takeWhile (fun c => !isPathSep c)).reverse
    if name = [] then "/" else ⟨name⟩

/-- `filepath.Ext`: the suffix starting at the final dot of the final path
element, empty if that element has no dot. -/
def goExt (p : String) : String :=
  let rev := p.data.reverse.takeWhile (fun c => !isPathSep c)
  let afterDot := rev.takeWhile (· ≠ '.')
  if afterDot.length = rev.length then "" else ⟨'.' :: afterDot.reverse⟩

/-- `strings.TrimSuffix`. -/
def goTrimSuffix (s suf : String) : String :=
  if suf.data.isSuffixOf s.data then ⟨s.data.take (s.data.length - suf.data.length)⟩
  else s

/-! ## The untyped JSON tree

Go decodes unknown JSON into `interface{}` trees: `nil`, `bool`, `float64`,
`string`, `[]interface{}` and `map[string]interface{}`.  JSON numbers are
modelled as rationals; Go maps collapse duplicate JSON keys with the last
occurrence winning, which `lookupJ` reproduces. -/

inductive Json where
  | null
  | bool (b : Bool)
  | num (q : Rat)
  | str (s : String)
  | arr (elems : List Json)
  | obj (fields : List (String × Json))

/-- Key lookup in a decoded object, last binding winning. -/
def lookupJ : List (String × Json) → String → Option Json
  | [], _ => none
  | kv :: rest, k =>
    match lookupJ rest k with
    | some v => some v
    | none => if kv.1 = k then some kv.2 else none

/-- Go's `x.(string)` type assertion on an optional looked-up value. -/
def asStr : Option Json → Option String
  | some (.str s) => some s
  | _ => none

/-- Go's `x.(map[string]interface{})` type assertion. -/
def asObj : Option Json → Option (List (String × Json))
  | some (.obj kvs) => some kvs
  | _ => none

/-- Go's `x.([]interface{})` type assertion. -/
def asArr : Option Json → Option (List Json)
  | some (.arr l) => some l
  | _ => none

def Json.isNum : Json → Bool
  | .num _ => true
  | _ => false

mutual

def jsize : Json → Nat
  | .null => 1
  | .bool _ => 1
  | .num _ => 1
  | .str _ => 1
  | .arr xs => 1 + jsizeList xs
  | .obj kvs => 1 + jsizeKVs kvs

def jsizeList : List Json → Nat
  | [] => 0
  | x :: xs => jsize x + jsizeList xs

def jsizeKVs : List (String × Json) → Nat
  | [] => 0
  | kv :: xs => jsize kv.2 + jsizeKVs xs

end

theorem jsize_pos (j : Json) : 0 < jsize j := by
  cases j <;> simp [jsize]

theorem lookupJ_jsize {kvs : List (String × Json)} {k : String} {v : Json}
    (h : lookupJ kvs k = some v) : jsize v ≤ jsizeKVs kvs := by
  induction kvs with
  | nil => simp [lookupJ] at h
  | cons kv rest ih =>
    unfold lookupJ at h
    simp only [jsizeKVs]
    split at h
    next w hw =>
      cases h
      have := ih hw
      all_goals omega
    next hw =>
      split at h
      · cases h; all_goals omega
      · cases h

theorem asStr_some {o : Option Json} {s : String} (h : asStr o = some s) :
    o = some (.str s) := by
  match o with
  | none => simp [asStr] at h
  | some j => cases j <;> simp_all [asStr]

theorem asArr_some {o : Option Json} {l : List Json} (h : asArr o = some l) :
    o = some (.arr l) := by
  match o with
  | none => simp [asArr] at h
  | some j => cases j <;> simp_all [asArr]

/-! ## The polymorphic `IdlType` and its decoders

`IdlType` is the Go struct (identical in all three variants): exactly one
slot is populated by decoding.  The `Array`, `Vec`, `Option` and `Coption`
slots store the raw decoded JSON value (Go `interface{}` / `[2]interface{}`),
which `mapType` later re-decodes. -/

structure IdlType where
  primitive : String := ""
  defined : Option String := none
  array : Option (Json × Json) := none
  vec : Option Json := none
  option : Option Json := none
  coption : Option Json := none

namespace V1

/-- `IdlType.UnmarshalJSON` as written, byte-identical, in `main.go` and
`part_001`: string → primitive; object probed for `defined` (string or
object with a string `name`), `array` (two-element), `vec`, `option`; an
object matching none of these returns `nil` with the zero value — the
opaque node.  A JSON `null` succeeds through the first probe:
`json.Unmarshal` of `null` into a string is a no-op success, leaving the
empty string, so the decoder returns the zero node.  A value that is
neither string, `null`, nor object is a JSON error. -/
def unmarshalIdlType : Json → Option IdlType
  | .str s => some { primitive := s }
  | .null => some { primitive := "" }
  | .obj kvs =>
    match asStr (lookupJ kvs "defined") with
    | some d => some { defined := some d }
    | none =>
      match (asObj (lookupJ kvs "defined")).bind (fun dkvs => asStr (lookupJ dkvs "name")) with
      | some d => some { defined := some d }
      | none =>
        match asArr (lookupJ kvs "array") with
        | some [a, b] => some { array := some (a, b) }
        | _ =>
          match lookupJ kvs "vec" with
          | some v => some { vec := some v }
          | none =>
            match lookupJ kvs "option" with
            | some v => some { option := some v }
            | none => some {}
  | _ => none

/-- The inner re-decode `_ = json.Unmarshal(innerBytes, &inner)` performed
by `mapType`: the error is discarded, leaving the zero value. -/
def idlTypeOfJson (j : Json) : IdlType := (unmarshalIdlType j).getD {}

end V1

namespace P0

/-- `IdlType.UnmarshalJSON` from `part_000`: same probing order but only a
string-valued `defined`, an additional `coption` key, and — unlike the
other two variants — an object matching no recognized key returns the
error `unknown IDL type structure`.  A JSON `null` no-ops through the
string probe exactly as in the other variants, giving the zero node. -/
def unmarshalIdlType : Json → Option IdlType
  | .str s => some { primitive := s }
  | .null => some { primitive := "" }
  | .obj kvs =>
    match asStr (lookupJ kvs "defined") with
    | some d => some { defined := some d }
    | none =>
      match asArr (lookupJ kvs "array") with
      | some [a, b] => some { array := some (a, b) }
      | _ =>
        match lookupJ kvs "vec" with
        | some v => some { vec := some v }
        | none =>
          match lookupJ kvs "option" with
          | some v => some { option := some v }
          | none =>
            match lookupJ kvs "coption" with
            | some v => some { coption := some v }
            | none => none
  | _ => none

def idlTypeOfJson (j : Json) : IdlType := (unmarshalIdlType j).getD {}

end P0

/-- `IdlEnumField` (present in `main.go` and `part_001`). -/
structure IdlEnumField where
  name : String := ""
  type : IdlType := {}

namespace V1

/-- `IdlEnumField.UnmarshalJSON`, byte-identical in `main.go` and
`part_001`: string → positional primitive; an object with both a `name`
and a `type` key is decoded as a named field (erroring if `name` is not a
string or `type` does not decode); any other object is decoded as a bare
positional `IdlType`.  A JSON `null` no-ops through the string probe as a
success with the empty string, giving a positional zero member. -/
def unmarshalEnumField : Json → Option IdlEnumField
  | .str s => some { type := { primitive := s } }
  | .null => some { type := { primitive := "" } }
  | .obj kvs =>
    if (lookupJ kvs "name").isSome && (lookupJ kvs "type").isSome then
      match asStr (lookupJ kvs "name"), lookupJ kvs "type" with
      | some n, some tj => (unmarshalIdlType tj).map (fun t => { name := n, type := t })
      | _, _ => none
    else
      (unmarshalIdlType (.obj kvs)).map (fun t => { type := t })
  | _ => none

end V1

/-! ## Size measure justifying `mapType`'s recursion -/

def pairSize : Option (Json × Json) → Nat
  | some ab => jsize ab.1 + jsize ab.2
  | none => 0

def optSize : Option Json → Nat
  | some j => jsize j
  | none => 0

/-- Total size of the raw JSON stored inside an `IdlType`. -/
def tsize (t : IdlType) : Nat :=
  pairSize t.array + optSize t.vec + optSize t.option + optSize t.coption

theorem le_tsize_of_vec {t : IdlType} {j : Json} (h : t.vec = some j) :
    jsize j ≤ tsize t := by
  simp only [tsize, h, optSize]; all_goals omega

theorem le_tsize_of_option {t : IdlType} {j : Json} (h : t.option = some j) :
    jsize j ≤ tsize t := by
  simp only [tsize, h, optSize]; all_goals omega

theorem le_tsize_of_coption {t : IdlType} {j : Json} (h : t.coption = some j) :
    jsize j ≤ tsize t := by
  simp only [tsize, h, optSize]; all_goals omega

theorem le_tsize_of_array_fst {t : IdlType} {a b : Json} (h : t.array = some (a, b)) :
    jsize a ≤ tsize t := by
  simp only [tsize, h, pairSize]; all_goals omega

theorem tsizeOfJsonV1 (j : Json) : tsize (V1.idlTypeOfJson j) < jsize j := by
  cases j with
  | obj kvs =>
    have hk : jsize (Json.obj kvs) = 1 + jsizeKVs kvs := rfl
    simp only [V1.idlTypeOfJson, V1.unmarshalIdlType, hk]
    split
    · simp [tsize, pairSize, optSize]; all_goals omega
    · split
      · simp [tsize, pairSize, optSize]; all_goals omega
      · split
        next a b h =>
          have h2 := asArr_some h
          have h3 := lookupJ_jsize h2
          simp only [jsize, jsizeList] at h3
          simp [tsize, pairSize, optSize]
          all_goals omega
        next =>
          split
          next v h =>
            have h3 := lookupJ_jsize h
            simp [tsize, pairSize, optSize]
            all_goals omega
          next =>
            split
            next v h =>
              have h3 := lookupJ_jsize h
              simp [tsize, pairSize, optSize]
              all_goals omega
            next =>
              simp [tsize, pairSize, optSize]
              all_goals omega
  | str s => simp [V1.idlTypeOfJson, V1.unmarshalIdlType, tsize, pairSize, optSize, jsize]
  | null => simp [V1.idlTypeOfJson, V1.unmarshalIdlType, tsize, pairSize, optSize, jsize]
  | bool b => simp [V1.idlTypeOfJson, V1.unmarshalIdlType, tsize, pairSize, optSize, jsize]
  | num q => simp [V1.idlTypeOfJson, V1.unmarshalIdlType, tsize, pairSize, optSize, jsize]
  | arr l =>
    simp [V1.idlTypeOfJson, V1.unmarshalIdlType, tsize, pairSize, optSize, jsize]

theorem tsizeOfJsonP0 (j : Json) : tsize (P0.idlTypeOfJson j) < jsize j := by
  cases j with
  | obj kvs =>
    have hk : jsize (Json.obj kvs) = 1 + jsizeKVs kvs := rfl
    simp only [P0.idlTypeOfJson, P0.unmarshalIdlType, hk]
    split
    · simp [tsize, pairSize, optSize]; all_goals omega
    · split
      next a b h =>
        have h2 := asArr_some h
        have h3 := lookupJ_jsize h2
        simp only [jsize, jsizeList] at h3
        simp [tsize, pairSize, optSize]
        all_goals omega
      next =>
        split
        next v h =>
          have h3 := lookupJ_jsize h
          simp [tsize, pairSize, optSize]
          all_goals omega
        next =>
          split
          next v h =>
            have h3 := lookupJ_jsize h
            simp [tsize, pairSize, optSize]
            all_goals omega
          next =>
            split
            next v h =>
              have h3 := lookupJ_jsize h
              simp [tsize, pairSize, optSize]
              all_goals omega
            next =>
              simp [tsize, pairSize, optSize]
              all_goals omega
  | str s => simp [P0.idlTypeOfJson, P0.unmarshalIdlType, tsize, pairSize, optSize, jsize]
  | null => simp [P0.idlTypeOfJson, P0.unmarshalIdlType, tsize, pairSize, optSize, jsize]
  | bool b => simp [P0.idlTypeOfJson, P0.unmarshalIdlType, tsize, pairSize, optSize, jsize]
  | num q => simp [P0.idlTypeOfJson, P0.unmarshalIdlType, tsize, pairSize, optSize, jsize]
  | arr l =>
    simp [P0.idlTypeOfJson, P0.unmarshalIdlType, tsize, pairSize, optSize, jsize]

/-! ## The type resolvers (`mapType`), one per variant

Each `mapType` probes the populated slot in the order the corresponding Go
code does, re-decodes the stored raw JSON for nested shapes, and renders
the Go type string.  A `none` result models a Go panic: the only panic
site is the unchecked `size.(float64)` assertion in the `Array` branch
(evaluated before the recursive call, per Go's left-to-right argument
evaluation), which propagates outward. -/

/-- Go's `int(f)` conversion of a `float64`: truncation toward zero —
the magnitude is divided out with natural-number (floor) division and the
sign reapplied, so `int(-2.5) = -2`, unlike Lean's floor division on
`Int` which would give `-3`. -/
def ratTruncInt (q : Rat) : Int :=
  if q.num < 0 then -(((q.num.natAbs / q.den : Nat) : Int))
  else ((q.num.natAbs / q.den : Nat) : Int)

namespace P1

/-- The primitive-vocabulary switch of `part_001`'s `mapType`. -/
def primGo : String → String
  | "bool" => "bool"
  | "u8" | "i8" => "uint8"
  | "u16" => "uint16"
  | "i16" => "int16"
  | "u32" => "uint32"
  | "i32" => "int32"
  | "u64" => "uint64"
  | "i64" => "int64"
  | "u128" | "i128" => "*big.Int"
  | "bytes" => "[]byte"
  | "string" => "string"
  | "pubkey" | "publicKey" => "solana.PublicKey"
  | _ => "interface\x7b\x7d"

/-- `mapType` of `part_001`: primitive, defined, option, vec, array, then
the `interface\x7b\x7d` fallback. -/
def mapType (t : IdlType) : Option String :=
  if t.primitive ≠ "" then some (primGo t.primitive)
  else
    match t.defined with
    | some d => some (toPascalCase1 d)
    | none =>
      match hOpt : t.option with
      | some j => (mapType (V1.idlTypeOfJson j)).map (fun s => "*" ++ s)
      | none =>
        match hVec : t.vec with
        | some j => (mapType (V1.idlTypeOfJson j)).map (fun s => "[]" ++ s)
        | none =>
          match hArr : t.array with
          | some (ej, sj) =>
            match sj with
            | .num q =>
              (mapType (V1.idlTypeOfJson ej)).map
                (fun s => "[" ++ toString (ratTruncInt q) ++ "]" ++ s)
            | _ => none
          | none => some "interface\x7b\x7d"
termination_by tsize t
decreasing_by
  · exact Nat.lt_of_lt_of_le (tsizeOfJsonV1 _) (le_tsize_of_option hOpt)
  · exact Nat.lt_of_lt_of_le (tsizeOfJsonV1 _) (le_tsize_of_vec hVec)
  · exact Nat.lt_of_lt_of_le (tsizeOfJsonV1 _) (le_tsize_of_array_fst hArr)

end P1

namespace MG

/-- The primitive-vocabulary switch of `main.go`'s `mapType`: identical to
`part_001`'s except that the 128-bit integers map to the fixed-width
`bin.Uint128` / `bin.Int128` types. -/
def primGo : String → String
  | "bool" => "bool"
  | "u8" | "i8" => "uint8"
  | "u16" => "uint16"
  | "i16" => "int16"
  | "u32" => "uint32"
  | "i32" => "int32"
  | "u64" => "uint64"
  | "i64" => "int64"
  | "u128" => "bin.Uint128"
  | "i128" => "bin.Int128"
  | "bytes" => "[]byte"
  | "string" => "string"
  | "pubkey" | "publicKey" => "solana.PublicKey"
  | _ => "interface\x7b\x7d"

/-- `mapType` of `main.go`: a closure over the program-name prefix, which
it prepends to defined-type references; same probing order as `part_001`. -/
def mapType (pre : String) (t : IdlType) : Option String :=
  if t.primitive ≠ "" then some (primGo t.primitive)
  else
    match t.defined with
    | some d => some (pre ++ toPascalCase1 d)
    | none =>
      match hOpt : t.option with
      | some j => (mapType pre (V1.idlTypeOfJson j)).map (fun s => "*" ++ s)
      | none =>
        match hVec : t.vec with
        | some j => (mapType pre (V1.idlTypeOfJson j)).map (fun s => "[]" ++ s)
        | none =>
          match hArr : t.array with
          | some (ej, sj) =>
            match sj with
            | .num q =>
              (mapType pre (V1.idlTypeOfJson ej)).map
                (fun s => "[" ++ toString (ratTruncInt q) ++ "]" ++ s)
            | _ => none
          | none => some "interface\x7b\x7d"
termination_by tsize t
decreasing_by
  · exact Nat.lt_of_lt_of_le (tsizeOfJsonV1 _) (le_tsize_of_option hOpt)
  · exact Nat.lt_of_lt_of_le (tsizeOfJsonV1 _) (le_tsize_of_vec hVec)
  · exact Nat.lt_of_lt_of_le (tsizeOfJsonV1 _) (le_tsize_of_array_fst hArr)

end MG

namespace P0

/-- `toPascalCase` of `part_000`: also replaces `-` by a space. -/
def toPascalCase (s : String) : String :=
  ⟨(goTitle (s.data.map (fun c =>
      if c = '_' then ' ' else if c = '-' then ' ' else c))).filter (· ≠ ' ')⟩

/-- The primitive mapping of `part_000`'s `mapType`: a `pubkey` pre-check,
then the switch; note `i8 → int8` and 128-bit integers to `*big.Int`. -/
def primGo (p : String) : String :=
  if p = "pubkey" then "solana.PublicKey"
  else
    match p with
    | "u8" => "uint8"
    | "i8" => "int8"
    | "u16" => "uint16"
    | "i16" => "int16"
    | "u32" => "uint32"
    | "i32" => "int32"
    | "u64" => "uint64"
    | "i64" => "int64"
    | "u128" => "*big.Int"
    | "i128" => "*big.Int"
    | "bool" => "bool"
    | "string" => "string"
    | "bytes" => "[]byte"
    | "publicKey" => "solana.PublicKey"
    | _ => "interface\x7b\x7d"

/-- `mapType` of `part_000`: primitive, defined, array, vec, then the
merged option-or-coption branch, then the fallback. -/
def mapType (t : IdlType) : Option String :=
  if t.primitive ≠ "" then some (primGo t.primitive)
  else
    match t.defined with
    | some d => some (toPascalCase d)
    | none =>
      match hArr : t.array with
      | some (ej, sj) =>
        match sj with
        | .num q =>
          (mapType (P0.idlTypeOfJson ej)).map
            (fun s => "[" ++ toString (ratTruncInt q) ++ "]" ++ s)
        | _ => none
      | none =>
        match hVec : t.vec with
        | some j => (mapType (P0.idlTypeOfJson j)).map (fun s => "[]" ++ s)
        | none =>
          match hOpt : t.option with
          | some j => (mapType (P0.idlTypeOfJson j)).map (fun s => "*" ++ s)
          | none =>
            match hCop : t.coption with
            | some j => (mapType (P0.idlTypeOfJson j)).map (fun s => "*" ++ s)
            | none => some "interface\x7b\x7d"
termination_by tsize t
decreasing_by
  · exact Nat.lt_of_lt_of_le (tsizeOfJsonP0 _) (le_tsize_of_array_fst hArr)
  · exact Nat.lt_of_lt_of_le (tsizeOfJsonP0 _) (le_tsize_of_vec hVec)
  · exact Nat.lt_of_lt_of_le (tsizeOfJsonP0 _) (le_tsize_of_option hOpt)
  · exact Nat.lt_of_lt_of_le (tsizeOfJsonP0 _) (le_tsize_of_coption hCop)

/-! ### Discriminator derivation in `part_000` -/

/-- The normalization loop inside `accountDiscriminator`: iterate over the
runes with their byte index `i`, inserting `_` before an uppercase rune
when `i > 0` and lowercasing every rune.  (Go's `range` loop advances `i`
by the rune's UTF-8 width.) -/
def snakeLoop : List Char → Nat → List Char
  | [], _ => []
  | c :: rest, i =>
    (if goIsUpper c ∧ 0 < i then ['_', goToLower c] else [goToLower c])
      ++ snakeLoop rest (i + utf8Size c)

/-- `accountDiscriminator` from `part_000`: normalize the name, then the
first 8 bytes of SHA-256 of `"account:" + normalized`. -/
def accountDiscriminator (name : String) : List Nat :=
  (sha256 (utf8Bytes ("account:".data ++ snakeLoop name.data 0))).take 8

/-- `instructionDiscriminator` from `part_000`: first 8 bytes of SHA-256
of `"global:" + name`, with no normalization. -/
def instructionDiscriminator (name : String) : List Nat :=
  (sha256 (utf8Bytes ("global:" ++ name).data)).take 8

/-- The account-discriminator constant emitted by `part_000`'s template:
explicit bytes when the schema supplies a non-empty `discriminator`
(Go templates treat `nil` and empty slices alike as falsy), otherwise the
derived bytes. -/
def accountDiscLiteral (name : String) (disc : List Int) : String :=
  if disc ≠ [] then intSliceToBytesLiteral disc
  else bytesLiteral (accountDiscriminator name)

/-- The instruction-discriminator constant emitted by `part_000`'s
template: always derived — `part_000`'s `IdlInstruction` struct has no
`Discriminator` field, so a schema-supplied value is dropped at parse
time and the template derives unconditionally. -/
def instrDiscLiteral (name : String) : String :=
  bytesLiteral (instructionDiscriminator name)

/-- Program-name defaulting in `part_000`'s `Generate`: an empty name
becomes the input path's base name with its extension trimmed. -/
def defaultIdlName (name path : String) : String :=
  if name = "" then goTrimSuffix (goBase path) (goExt path) else name

end P0

namespace V1

/-- `manualDiscriminator`, byte-identical in `main.go` and `part_001`:
render the first 8 bytes of SHA-256 of `"prefix:name"` as a byte-slice
literal, with no name normalization for any namespace. -/
def manualDiscriminator (pfx name : String) : String :=
  intSliceToBytesLiteral
    (((sha256 (utf8Bytes (pfx ++ ":" ++ name).data)).take 8).map Int.ofNat)

/-- The account-discriminator constant emitted by the templates of
`main.go` and `part_001` (identical conditional): explicit bytes when
non-empty, else `manualDiscriminator "account" name` on the raw name. -/
def accountDiscLiteral (name : String) (disc : List Int) : String :=
  if disc ≠ [] then intSliceToBytesLiteral disc
  else manualDiscriminator "account" name

/-- The instruction-discriminator constant emitted by the templates of
`main.go` and `part_001`: explicit bytes when non-empty, else
`manualDiscriminator "global" name`. -/
def instrDiscLiteral (name : String) (disc : List Int) : String :=
  if disc ≠ [] then intSliceToBytesLiteral disc
  else manualDiscriminator "global" name

end V1

namespace P1

/-- Program-name defaulting in `part_001`'s `Generate`: an empty name
becomes the literal `"program"` — not a name derived from the path. -/
def defaultIdlName (name : String) : String :=
  if name = "" then "program" else name

end P1

namespace MG

/-- Program-name defaulting in `main.go`'s `Generate`: an empty name (or
the placeholder `"program"`) becomes the input file name with its
extension trimmed. -/
def defaultIdlName (name path : String) : String :=
  if name = "" ∨ name = "program" then
    goTrimSuffix (goBase path) (goExt (goBase path))
  else name

end MG

/-! ## Spec-side definitions used for refinement comparisons -/

/-- Spec-worded normalization, step 1: "an underscore inserted before
every capital letter that is preceded by at least one character" — the
head is kept, every later capital gets an underscore before it. -/
def specInsertAux : List Char → List Char
  | [] => []
  | c :: rest => (if goIsUpper c then ['_', c] else [c]) ++ specInsertAux rest

/-- Spec-worded account-name normalization: insert the underscores, then
lowercase all letters. -/
def specNormalize : List Char → List Char
  | [] => []
  | c :: rest => (c :: specInsertAux rest).map goToLower

/-! ## Supporting lemmas -/

theorem utf8Size_pos (c : Char) : 0 < utf8Size c := by
  unfold utf8Size utf8Char
  dsimp only
  split_ifs <;> simp

theorem snakeLoop_of_pos (cs : List Char) :
    ∀ i : Nat, 0 < i → P0.snakeLoop cs i = (specInsertAux cs).map goToLower := by
  induction cs with
  | nil => intro i hi; rfl
  | cons c rest ih =>
    intro i hi
    have hlow : goToLower '_' = '_' := by decide
    show (if goIsUpper c ∧ 0 < i then ['_', goToLower c] else [goToLower c])
        ++ P0.snakeLoop rest (i + utf8Size c) = _
    rw [ih (i + utf8Size c) (by omega)]
    by_cases hU : goIsUpper c
    · simp [specInsertAux, hU, hi, hlow]
    · simp [specInsertAux, hU]

theorem snakeLoop_zero (cs : List Char) : P0.snakeLoop cs 0 = specNormalize cs := by
  cases cs with
  | nil => rfl
  | cons c rest =>
    show (if goIsUpper c ∧ 0 < 0 then ['_', goToLower c] else [goToLower c])
        ++ P0.snakeLoop rest (0 + utf8Size c) = _
    rw [snakeLoop_of_pos rest (0 + utf8Size c) (by have := utf8Size_pos c; omega)]
    simp [specNormalize]

theorem goBase_of_no_sep (path : String) (hne : path ≠ "")
    (hsep : ∀ c ∈ path.data, isPathSep c = false) : goBase path = path := by
  obtain ⟨data⟩ := path
  have hd : (String.mk data).data = data := rfl
  rw [hd] at hsep
  have hdata : data ≠ [] := by
    intro h; subst h; exact hne rfl
  have hrev : ∀ c ∈ data.reverse, isPathSep c = false := by
    intro c hc; exact hsep c (List.mem_reverse.mp hc)
  have h1 : data.reverse.dropWhile isPathSep = data.reverse := by
    cases hx : data.reverse with
    | nil => rfl
    | cons c rest =>
      rw [List.dropWhile_cons]
      have hc := hrev c (by rw [hx]; exact List.mem_cons_self c rest)
      simp [hc]
  have h2 : data.reverse.takeWhile (fun c => !isPathSep c) = data.reverse := by
    have hgen : ∀ l : List Char, (∀ c ∈ l, isPathSep c = false) →
        l.takeWhile (fun c => !isPathSep c) = l := by
      intro l hl
      induction l with
      | nil => rfl
      | cons c rest ih =>
        rw [List.takeWhile_cons]
        simp [hl c (List.mem_cons_self c rest),
          ih (fun x hx => hl x (List.mem_cons_of_mem c hx))]
    exact hgen _ hrev
  simp [goBase, hne, h1, List.reverse_reverse, h2, hdata]

/-! ## The claims -/

/-- C1 (amended).  In `part_000`, the account-namespace deriver first
normalizes the name exactly as the spec words it (an underscore inserted
before every capital that is preceded by at least one character, then all
letters lowercased) and returns the first 8 bytes, in order, of the
SHA-256 digest of the UTF-8 bytes of `account:normalized`; its
instruction deriver hashes `global:name` with no normalization.  In
`main.go` and `part_001`, `manualDiscriminator` likewise returns the first
8 digest bytes of `prefix:name` — but applies no normalization for any
namespace, including `account`. -/
theorem C1_thm :
    (∀ cs : List Char, P0.snakeLoop cs 0 = specNormalize cs)
    ∧ (∀ name : String, P0.accountDiscriminator name =
        (sha256 (utf8Bytes ("account:".data ++ specNormalize name.data))).take 8)
    ∧ (∀ name : String, P0.instructionDiscriminator name =
        (sha256 (utf8Bytes (("global:" ++ name).data))).take 8)
    ∧ (∀ pfx name : String, V1.manualDiscriminator pfx name =
        intSliceToBytesLiteral
          (((sha256 (utf8Bytes ((pfx ++ ":" ++ name).data))).take 8).map Int.ofNat)) := by
  refine ⟨snakeLoop_zero, fun name => ?_, fun name => rfl, fun pfx name => rfl⟩
  unfold P0.accountDiscriminator
  rw [snakeLoop_zero]

/-- C1 (counterexample).  The claim — quantified over every namespace and
name and citing `main.go`'s `manualDiscriminator` — is false there: the
account discriminator `main.go` derives for `UserAccount` hashes the raw
name, and differs from the bytes obtained from the normalized
(`user_account`) form that the claim requires. -/
theorem C1_counterexample :
    V1.manualDiscriminator "account" "UserAccount" ≠
      intSliceToBytesLiteral
        (((sha256 (utf8Bytes ("account:".data ++ specNormalize "UserAccount".data))).take 8).map
          Int.ofNat) := by decide

/-- C2 (amended).  For a keyed object containing none of the recognized
keys (`defined`, `array`, `vec`, `option`, `coption`), the decoder of
`main.go`/`part_001` succeeds with the zero (opaque/unresolved) Type Node,
while the decoder of `part_000` returns an error (which its `Generate`
turns into a fatal abort). -/
theorem C2_thm (kvs : List (String × Json))
    (hd : lookupJ kvs "defined" = none) (ha : lookupJ kvs "array" = none)
    (hv : lookupJ kvs "vec" = none) (ho : lookupJ kvs "option" = none)
    (hc : lookupJ kvs "coption" = none) :
    V1.unmarshalIdlType (.obj kvs) = some {}
    ∧ P0.unmarshalIdlType (.obj kvs) = none := by
  constructor
  · simp [V1.unmarshalIdlType, hd, ha, hv, ho, asStr, asObj, asArr]
  · simp [P0.unmarshalIdlType, hd, ha, hv, ho, hc, asStr, asObj, asArr]

/-- C2 (witness): the amended theorem at the concrete unrecognized object
with the single key `foo`. -/
theorem C2_thm_witness :
    V1.unmarshalIdlType (.obj [("foo", .num 1)]) = some {}
    ∧ P0.unmarshalIdlType (.obj [("foo", .num 1)]) = none :=
  C2_thm [("foo", .num 1)] rfl rfl rfl rfl rfl

/-- C2 (counterexample).  The claim — that decoding a well-formed keyed
object never raises — is false for `part_000`'s decoder, which returns
the `unknown IDL type structure` error on an object with no recognized
key. -/
theorem C2_counterexample :
    P0.unmarshalIdlType (.obj [("vendor", .str "x")]) = none := rfl

/-- C3 (amended).  In `main.go` and `part_001`, a non-empty explicit
discriminator is emitted verbatim for both accounts and instructions,
and derivation happens only when it is absent or empty (Go templates
treat an empty slice as falsy).  In `part_000`, this holds for accounts,
but instruction discriminators are always derived: its `IdlInstruction`
struct carries no discriminator field, so the template derives
unconditionally from the name. -/
theorem C3_thm (name : String) (disc : List Int) (h : disc ≠ []) :
    V1.accountDiscLiteral name disc = intSliceToBytesLiteral disc
    ∧ V1.instrDiscLiteral name disc = intSliceToBytesLiteral disc
    ∧ P0.accountDiscLiteral name disc = intSliceToBytesLiteral disc
    ∧ P0.instrDiscLiteral name = bytesLiteral (P0.instructionDiscriminator name) := by
  refine ⟨?_, ?_, ?_, rfl⟩ <;>
    simp [V1.accountDiscLiteral, V1.instrDiscLiteral, P0.accountDiscLiteral, h]

/-- C3 (witness): the amended theorem at the instruction name
`initialize` with the explicit discriminator `[1..8]`. -/
theorem C3_thm_witness :
    V1.accountDiscLiteral "initialize" [1, 2, 3, 4, 5, 6, 7, 8] =
      intSliceToBytesLiteral [1, 2, 3, 4, 5, 6, 7, 8]
    ∧ V1.instrDiscLiteral "initialize" [1, 2, 3, 4, 5, 6, 7, 8] =
      intSliceToBytesLiteral [1, 2, 3, 4, 5, 6, 7, 8]
    ∧ P0.accountDiscLiteral "initialize" [1, 2, 3, 4, 5, 6, 7, 8] =
      intSliceToBytesLiteral [1, 2, 3, 4, 5, 6, 7, 8]
    ∧ P0.instrDiscLiteral "initialize" =
      bytesLiteral (P0.instructionDiscriminator "initialize") :=
  C3_thm "initialize" [1, 2, 3, 4, 5, 6, 7, 8] (by decide)

/-- C3 (counterexample).  The claim — that an entity with an explicit
discriminator never has one derived — is false for `part_000`'s
instruction emission: for an instruction named `initialize` whose schema
entry supplies `[1,2,3,4,5,6,7,8]`, the emitted constant is the derived
digest literal, not the explicit bytes. -/
theorem C3_counterexample :
    P0.instrDiscLiteral "initialize" ≠
      intSliceToBytesLiteral [1, 2, 3, 4, 5, 6, 7, 8] := by decide

/-- C4 (amended).  In `part_000`, a `coption` value wrapping any inner
value decodes into the distinct `Coption` slot (`option` decodes into
`Option`), and resolving a `Coption` node yields exactly what resolving
the corresponding `Option` node yields — the `*`-wrapped inner type.  In
`main.go`, by contrast, `coption` is not a recognized key at all (see the
counterexample). -/
theorem C4_thm (j : Json) :
    P0.unmarshalIdlType (.obj [("coption", j)]) = some { coption := some j }
    ∧ P0.unmarshalIdlType (.obj [("option", j)]) = some { option := some j }
    ∧ P0.mapType { coption := some j } = P0.mapType { option := some j } := by
  refine ⟨?_, ?_, ?_⟩
  · simp [P0.unmarshalIdlType, lookupJ, asStr, asObj, asArr]
  · simp [P0.unmarshalIdlType, lookupJ, asStr, asObj, asArr]
  · conv_lhs => rw [P0.mapType.eq_def]
    all_goals conv_rhs => rw [P0.mapType.eq_def]
    all_goals simp

/-- C4 (counterexample).  The claim also cites `main.go`, where it is
false: `main.go`'s decoder does not recognize `coption` (the object
decodes to the opaque zero node, not a legacy-optional node), and
`main.go`'s `mapType` ignores the `Coption` slot, resolving it to the
opaque fallback instead of the nullable wrapper it gives `Option`. -/
theorem C4_counterexample :
    V1.unmarshalIdlType (.obj [("coption", .str "u8")]) = some ({} : IdlType)
    ∧ MG.mapType "" { coption := some (.str "u8") } = some "interface\x7b\x7d"
    ∧ MG.mapType "" { option := some (.str "u8") } = some "*uint8" := by
  refine ⟨rfl, ?_, ?_⟩ <;>
    simp [MG.mapType, V1.idlTypeOfJson, V1.unmarshalIdlType, MG.primGo] <;> all_goals rfl

/-- C5 (amended).  `part_001`'s resolver maps every primitive of the
vocabulary to its documented Go type — the 128-bit integers to the
arbitrary-precision `*big.Int`, as does `part_000` — and maps every
primitive outside the vocabulary to the opaque fallback without
panicking.  `main.go`'s resolver instead maps `u128`/`i128` to the
fixed-width `bin.Uint128`/`bin.Int128` (see the counterexample). -/
theorem C5_thm :
    (∀ pr ∈ ([("bool", "bool"), ("u8", "uint8"), ("i8", "uint8"),
        ("u16", "uint16"), ("i16", "int16"), ("u32", "uint32"), ("i32", "int32"),
        ("u64", "uint64"), ("i64", "int64"), ("u128", "*big.Int"), ("i128", "*big.Int"),
        ("bytes", "[]byte"), ("string", "string"), ("pubkey", "solana.PublicKey"),
        ("publicKey", "solana.PublicKey")] : List (String × String)),
      P1.mapType { primitive := pr.1 } = some pr.2)
    ∧ P0.mapType { primitive := "u128" } = some "*big.Int"
    ∧ P0.mapType { primitive := "i128" } = some "*big.Int"
    ∧ (∀ p : String,
        p ∉ (["bool", "u8", "i8", "u16", "i16", "u32", "i32", "u64", "i64",
              "u128", "i128", "bytes", "string", "pubkey", "publicKey"] : List String) →
        P1.mapType { primitive := p } = some "interface\x7b\x7d") := by
  refine ⟨?_, ?_, ?_, ?_⟩
  · intro pr hpr
    fin_cases hpr <;> (rw [P1.mapType.eq_def]; simp [P1.primGo])
  · rw [P0.mapType.eq_def]; simp [P0.primGo]
  · rw [P0.mapType.eq_def]; simp [P0.primGo]
  · intro p hp
    by_cases hp0 : p = ""
    · subst hp0; rw [P1.mapType.eq_def]; simp
    · have h1 : P1.primGo p = "interface\x7b\x7d" := by
        unfold P1.primGo; split <;> simp_all
      rw [P1.mapType.eq_def]; simp [hp0, h1]

/-- C5 (witness): the amended theorem at the in-vocabulary primitive
`bool` and the out-of-vocabulary primitive `f64`. -/
theorem C5_thm_witness :
    P1.mapType { primitive := "bool" } = some "bool"
    ∧ P1.mapType { primitive := "f64" } = some "interface\x7b\x7d" :=
  ⟨C5_thm.1 ("bool", "bool") (by decide), C5_thm.2.2.2 "f64" (by decide)⟩

/-- C5 (counterexample).  The claim — that the 128-bit integers resolve
to an arbitrary-precision integer type — is false for `main.go`'s
`mapType`, which it cites: `u128`/`i128` resolve to the fixed 128-bit
`bin.Uint128`/`bin.Int128`, not to `*big.Int`. -/
theorem C5_counterexample :
    MG.mapType "" { primitive := "u128" } = some "bin.Uint128"
    ∧ MG.mapType "" { primitive := "i128" } = some "bin.Int128"
    ∧ ("bin.Uint128" : String) ≠ "*big.Int"
    ∧ ("bin.Int128" : String) ≠ "*big.Int" :=
  ⟨by rw [MG.mapType.eq_def]; simp [MG.primGo],
   by rw [MG.mapType.eq_def]; simp [MG.primGo],
   by decide, by decide⟩

/-- C6 (confirmed).  The node `List(Array(Optional(Primitive "u8"), 4))`
— stored, as the decoders store it, as a `Vec` slot holding the raw JSON
of the array node — decodes to exactly that node and resolves in
`part_001` (and in `main.go`, for every prefix) to `[][4]*uint8`: a
dynamically-sized sequence of a fixed-length-4 sequence of a nullable
`uint8`, composing outside-in. -/
theorem C6_thm :
    V1.unmarshalIdlType
        (.obj [("vec", .obj [("array", .arr [.obj [("option", .str "u8")], .num 4])])])
      = some { vec := some (.obj [("array", .arr [.obj [("option", .str "u8")], .num 4])]) }
    ∧ P1.mapType { vec := some (.obj [("array", .arr [.obj [("option", .str "u8")], .num 4])]) }
      = some "[][4]*uint8"
    ∧ ∀ pre : String,
        MG.mapType pre
            { vec := some (.obj [("array", .arr [.obj [("option", .str "u8")], .num 4])]) }
          = some "[][4]*uint8" := by
  refine ⟨rfl, ?_, fun pre => ?_⟩ <;>
    simp [P1.mapType, MG.mapType, V1.idlTypeOfJson, V1.unmarshalIdlType, lookupJ,
      asStr, asObj, asArr, P1.primGo, MG.primGo, ratTruncInt] <;> all_goals rfl

/-- C7 (amended).  Enum-field decoding in `main.go`/`part_001` is the
three-way disambiguation in this exact order: a bare string decodes to a
positional primitive member; otherwise an object carrying both a `name`
and a `type` key decodes to the named member — provided the `name` value
is a string and the `type` value decodes as a Type Node (an error
otherwise, see the counterexample); any other object decodes to a bare
positional Type Node — in particular a `defined` object is positional,
never a named field. -/
theorem C7_thm :
    (∀ s : String, V1.unmarshalEnumField (.str s) =
        some { name := "", type := { primitive := s } })
    ∧ (∀ (kvs : List (String × Json)) (n : String) (tj : Json) (t : IdlType),
        lookupJ kvs "name" = some (.str n) → lookupJ kvs "type" = some tj →
        V1.unmarshalIdlType tj = some t →
        V1.unmarshalEnumField (.obj kvs) = some { name := n, type := t })
    ∧ (∀ kvs : List (String × Json),
        lookupJ kvs "name" = none ∨ lookupJ kvs "type" = none →
        V1.unmarshalEnumField (.obj kvs) =
          (V1.unmarshalIdlType (.obj kvs)).map (fun t => { name := "", type := t }))
    ∧ (∀ d : String, V1.unmarshalEnumField (.obj [("defined", .str d)]) =
        some { name := "", type := { defined := some d } }) := by
  refine ⟨fun s => rfl, ?_, ?_, fun d => rfl⟩
  · intro kvs n tj t h1 h2 h3
    simp [V1.unmarshalEnumField, h1, h2, h3, asStr]
  · intro kvs h
    rcases h with h | h <;> simp [V1.unmarshalEnumField, h]

/-- C7 (witness): the amended theorem's named-member arm at the concrete
object with a string `name` and a primitive `type`. -/
theorem C7_thm_witness :
    V1.unmarshalEnumField (.obj [("name", .str "x"), ("type", .str "u64")]) =
      some { name := "x", type := { primitive := "u64" } } :=
  C7_thm.2.1 [("name", .str "x"), ("type", .str "u64")] "x" (.str "u64")
    { primitive := "u64" } rfl rfl rfl

/-- C7 (counterexample).  The claim — that every object carrying both a
`name` and a `type` key decodes to a named member — is false: with a
non-string `name` value the inner struct decode fails and enum-field
decoding returns an error instead of a named member. -/
theorem C7_counterexample :
    V1.unmarshalEnumField (.obj [("name", .num 5), ("type", .str "u64")]) = none := rfl

/-- C8 (confirmed).  In `part_001` and `part_000`, resolving a
`Defined(name)` node always succeeds, for every name and independently of
any known-names set (the resolvers take no such input — `part_000` builds
a `typesMap` that `mapType` never consults), producing the pascal-cased
forward reference; a dangling `Defined("Ghost")` resolves the same way. -/
theorem C8_thm (name : String) (knownNames : List String) :
    P1.mapType { defined := some name } = some (toPascalCase1 name)
    ∧ P0.mapType { defined := some name } = some (P0.toPascalCase name) := by
  constructor
  · rw [P1.mapType.eq_def]; simp
  · rw [P0.mapType.eq_def]; simp

/-- C9 (amended).  When the parsed program name is empty, `main.go` and
`part_000` default it to the input path's file stem (base name with the
extension trimmed; `main.go` also remaps the name `program`), and the two
compute the same stem for any separator-free path; `part_001` instead
defaults it to the literal `"program"`, which is non-empty but not
derived from the input's origin.  A non-empty name is kept.  The stem —
and hence the defaulted name — can itself be empty (see the
counterexample). -/
theorem C9_thm (name path : String) :
    MG.defaultIdlName "" path = goTrimSuffix (goBase path) (goExt (goBase path))
    ∧ P0.defaultIdlName "" path = goTrimSuffix (goBase path) (goExt path)
    ∧ P1.defaultIdlName "" = "program"
    ∧ (name ≠ "" → P0.defaultIdlName name path = name ∧ P1.defaultIdlName name = name)
    ∧ (name ≠ "" → name ≠ "program" → MG.defaultIdlName name path = name)
    ∧ (path ≠ "" → (∀ c ∈ path.data, isPathSep c = false) →
        MG.defaultIdlName "" path = P0.defaultIdlName "" path) := by
  refine ⟨rfl, rfl, rfl, ?_, ?_, ?_⟩
  · intro h; exact ⟨by simp [P0.defaultIdlName, h], by simp [P1.defaultIdlName, h]⟩
  · intro h1 h2; simp [MG.defaultIdlName, h1, h2]
  · intro hne hsep
    have hbase : goBase path = path := goBase_of_no_sep path hne hsep
    simp [MG.defaultIdlName, P0.defaultIdlName, hbase]

/-- C9 (witness): the amended theorem at the name `myname` and the
separator-free path `myprog.json`. -/
theorem C9_thm_witness :
    P0.defaultIdlName "myname" "myprog.json" = "myname"
    ∧ MG.defaultIdlName "myname" "myprog.json" = "myname"
    ∧ MG.defaultIdlName "" "myprog.json" = P0.defaultIdlName "" "myprog.json" :=
  ⟨((C9_thm "myname" "myprog.json").2.2.2.1 (by decide)).1,
   (C9_thm "myname" "myprog.json").2.2.2.2.1 (by decide) (by decide),
   (C9_thm "myname" "myprog.json").2.2.2.2.2 (by decide) (by decide)⟩

/-- C9 (counterexample).  The claim is false in two ways at concrete
inputs: `part_001` defaults the empty name to the literal `"program"`,
which differs from the file stem (`myprog`) the claim requires; and for
the path `.json` the stem is empty, so even `main.go`'s defaulted name is
empty, contradicting the claimed non-emptiness. -/
theorem C9_counterexample :
    P1.defaultIdlName "" = "program"
    ∧ goTrimSuffix (goBase "myprog.json") (goExt "myprog.json") = "myprog"
    ∧ ("program" : String) ≠ "myprog"
    ∧ MG.defaultIdlName "" ".json" = "" := by decide

/-- C10 (confirmed).  In all three variants, the `Array` branch of the
resolver is total exactly under the precondition that the stored length
slot is a JSON number: a numeric slot yields the fixed-size sequence type
of the truncated-toward-zero integer length prefixed to the recursively
resolved element (with no non-negativity check — the witness uses the
length `-5/2`, which Go's `int(float64)` conversion truncates to `-2`),
while any non-numeric slot makes the unchecked `size.(float64)` type
assertion fail, so the resolver panics (models as `none`) instead of
producing the opaque fallback. -/
theorem C10_thm (e v : Json) (pre : String) :
    (∀ q : Rat, v = .num q →
      P1.mapType { array := some (e, v) } =
        (P1.mapType (V1.idlTypeOfJson e)).map
          (fun s => "[" ++ toString (ratTruncInt q) ++ "]" ++ s)
      ∧ MG.mapType pre { array := some (e, v) } =
        (MG.mapType pre (V1.idlTypeOfJson e)).map
          (fun s => "[" ++ toString (ratTruncInt q) ++ "]" ++ s)
      ∧ P0.mapType { array := some (e, v) } =
        (P0.mapType (P0.idlTypeOfJson e)).map
          (fun s => "[" ++ toString (ratTruncInt q) ++ "]" ++ s))
    ∧ (v.isNum = false →
      P1.mapType { array := some (e, v) } = none
      ∧ MG.mapType pre { array := some (e, v) } = none
      ∧ P0.mapType { array := some (e, v) } = none) := by
  constructor
  · intro q hq
    subst hq
    refine ⟨?_, ?_, ?_⟩
    · rw [P1.mapType.eq_def]; simp
    · rw [MG.mapType.eq_def]; simp
    · rw [P0.mapType.eq_def]; simp
  · intro hv
    refine ⟨?_, ?_, ?_⟩
    · rw [P1.mapType.eq_def]; cases v <;> simp_all [Json.isNum]
    · rw [MG.mapType.eq_def]; cases v <;> simp_all [Json.isNum]
    · rw [P0.mapType.eq_def]; cases v <;> simp_all [Json.isNum]

/-- C10 (witness): the theorem at the negative non-integer length `-5/2`
— truncated toward zero to `-2`, as Go's `int(float64)` does, exhibiting
the absence of a non-negativity check — and at a string-valued length
(panic). -/
theorem C10_thm_witness :
    P1.mapType { array := some (.str "u8", .num (mkRat (-5) 2)) } =
      (P1.mapType (V1.idlTypeOfJson (.str "u8"))).map
        (fun s => "[" ++ toString (ratTruncInt (mkRat (-5) 2)) ++ "]" ++ s)
    ∧ toString (ratTruncInt (mkRat (-5) 2)) = "-2"
    ∧ P1.mapType { array := some (.str "u8", .str "four") } = none :=
  ⟨((C10_thm (.str "u8") (.num (mkRat (-5) 2)) "").1 (mkRat (-5) 2) rfl).1,
   by decide,
   ((C10_thm (.str "u8") (.str "four") "").2 rfl).1⟩

end IdlGen
